import Mathlib

/-!
Verification of the pulp asynchronous-execution core: task lifecycle,
snapshot/restore persistence, FIFO task queue with deduplication and
multi-criteria lookup, the content-handler container/dispatcher, and the
JSON controller error handler.

The repository ships the unit tests (`test/unit/test_tasks.py`,
`test/unit/test_handler_container.py`), the web-service controller base
(`src/pulp/server/webservices/controllers/base.py`) and a Django view.
The tasking/queue/container/dispatcher modules themselves
(`pulp.server.tasking.task`, `pulp.server.tasking.queue.fifo`,
`pulp.server.db.model.persistence`, `pulp.gc_client.agent.container`,
`pulp.gc_client.agent.dispatcher`) are not present; those are modelled
from the specification, with the repository's unit tests pinning down the
observable behaviour wherever the two disagree.
-/

namespace Pulp

/-- Task states from `pulp.server.tasking.task`: `waiting → running →
finished / error / timed_out / canceled`. -/
inductive TaskState where
  | waiting
  | running
  | finished
  | error
  | timedOut
  | canceled
deriving DecidableEq, Repr

/-- `task_complete_states`: the terminal states. -/
def task_complete_states : List TaskState :=
  [.finished, .error, .timedOut, .canceled]

/-- Whether a state is terminal ("complete"). -/
def TaskState.isComplete : TaskState → Bool
  | .finished => true
  | .error => true
  | .timedOut => true
  | .canceled => true
  | .waiting => false
  | .running => false

/-- Python values appearing as task arguments, keyword arguments and
results in the unit tests (ints, strings, booleans, None). -/
inductive Value where
  | vnat (n : Nat)
  | vstr (s : String)
  | vbool (b : Bool)
  | vnone
deriving DecidableEq, Repr

/-- One-sided inclusion of association lists viewed as Python dicts:
every key of `a` is bound in `b` to the same value. -/
def dictLe (a b : List (String × Value)) : Bool :=
  a.all fun kv => b.lookup kv.1 == some kv.2

/-- Python dict equality for keyword arguments: same bindings in both
directions, insensitive to entry order (value equality, not identity). -/
def dictEq (a b : List (String × Value)) : Bool :=
  dictLe a b && dictLe b a

/-- Modelled from the spec: a `pulp.server.tasking.task.Task` record
(module not in the source tree).  Identity (generated id, the
`method_name` of the callable reference, `args`, `kwargs`), the state
machine field, timing fields and outcome fields.  Time instants are
naturals (seconds); `exception` is the captured error message rendered
as a string, per the spec's data model. -/
structure Task where
  id : Nat
  method_name : String
  args : List Value
  kwargs : List (String × Value)
  state : TaskState
  scheduled_time : Nat
  start_time : Option Nat
  finish_time : Option Nat
  result : Option Value
  exception : Option String
  traceback : Option String
deriving DecidableEq, Repr

/-- Modelled from the spec: `Task(callable, args, kwargs)` constructs a
task in state `waiting` with no outcome fields populated and
`scheduled_time` defaulting to "now" (0 here). -/
def Task.new (id : Nat) (method_name : String)
    (args : List Value) (kwargs : List (String × Value))
    (scheduled_time : Nat) : Task :=
  { id := id
    method_name := method_name
    args := args
    kwargs := kwargs
    state := .waiting
    scheduled_time := scheduled_time
    start_time := none
    finish_time := none
    result := none
    exception := none
    traceback := none }

/-- Outcome of executing a task body: a returned value, or a raised
exception carrying its message. -/
inductive BodyOutcome where
  | ret (v : Value)
  | raise (msg : String)
deriving DecidableEq, Repr

/-- The formatted traceback string captured when a task body raises,
mirroring Python's `traceback.format_exc()`: a non-empty header line
followed by the exception message. -/
def formatTraceback (msg : String) : String :=
  "Traceback (most recent call last):\n" ++ msg

/-- Modelled from the spec: `Task.run()` executes the callable
synchronously, captures the return value into `result` on success or
the exception message plus formatted traceback into
`exception`/`traceback` on failure, sets the state to `finished` or
`error` accordingly, and stamps `start_time`/`finish_time` around
execution. -/
def Task.run (t : Task) (outcome : BodyOutcome) (now : Nat) : Task :=
  match outcome with
  | .ret v =>
      { t with
        state := .finished
        result := some v
        start_time := some now
        finish_time := some now }
  | .raise msg =>
      { t with
        state := .error
        exception := some msg
        traceback := some (formatTraceback msg)
        start_time := some now
        finish_time := some now }

/-- Modelled from the spec: `pulp.server.db.model.persistence.TaskSnapshot`,
an immutable serializable capture of a Task's identity and current
state at the moment of capture (module not in the source tree). -/
structure TaskSnapshot where
  id : Nat
  method_name : String
  args : List Value
  kwargs : List (String × Value)
  state : TaskState
  scheduled_time : Nat
  start_time : Option Nat
  finish_time : Option Nat
  result : Option Value
  exception : Option String
  traceback : Option String
deriving DecidableEq, Repr

/-- Capture a snapshot of a task: copy every identity/state/outcome
field. -/
def TaskSnapshot.ofTask (t : Task) : TaskSnapshot :=
  { id := t.id
    method_name := t.method_name
    args := t.args
    kwargs := t.kwargs
    state := t.state
    scheduled_time := t.scheduled_time
    start_time := t.start_time
    finish_time := t.finish_time
    result := t.result
    exception := t.exception
    traceback := t.traceback }

/-- Modelled from the spec: `restore_from_snapshot` reconstructs a
Task-shaped object whose state/result/exception/traceback match the
snapshot. -/
def restore_from_snapshot (s : TaskSnapshot) : Task :=
  { id := s.id
    method_name := s.method_name
    args := s.args
    kwargs := s.kwargs
    state := s.state
    scheduled_time := s.scheduled_time
    start_time := s.start_time
    finish_time := s.finish_time
    result := s.result
    exception := s.exception
    traceback := s.traceback }

/-- A field value as observed by `getattr` on a task: the typed content
of one of the task-shape fields, used by the queue's `find`/`exists`
criteria comparison. -/
inductive FieldVal where
  | fnat (n : Nat)
  | fstr (s : String)
  | fstate (s : TaskState)
  | fargs (l : List Value)
  | fkwargs (l : List (String × Value))
  | fopt (o : Option Value)
  | foptStr (o : Option String)
  | foptNat (o : Option Nat)
deriving DecidableEq, Repr

/-- Python `==` on field values: keyword-argument dicts compare by
order-insensitive value equality, everything else structurally. -/
def fieldEq : FieldVal → FieldVal → Bool
  | .fkwargs a, .fkwargs b => dictEq a b
  | a, b => a == b

/-- `getattr(task, field)` over the task shape: `some` of the field's
value for a known field name, `none` for a name that does not exist on
the task shape. -/
def Task.getField (t : Task) (f : String) : Option FieldVal :=
  if f = "id" then some (.fnat t.id)
  else if f = "method_name" then some (.fstr t.method_name)
  else if f = "args" then some (.fargs t.args)
  else if f = "kwargs" then some (.fkwargs t.kwargs)
  else if f = "state" then some (.fstate t.state)
  else if f = "scheduled_time" then some (.fnat t.scheduled_time)
  else if f = "start_time" then some (.foptNat t.start_time)
  else if f = "finish_time" then some (.foptNat t.finish_time)
  else if f = "result" then some (.fopt t.result)
  else if f = "exception" then some (.foptStr t.exception)
  else if f = "traceback" then some (.foptStr t.traceback)
  else none

/-- Whether a field name exists on the task shape (the domain of
`Task.getField`, which depends only on the name). -/
def knownField (f : String) : Bool :=
  f == "id" || f == "method_name" || f == "args" || f == "kwargs" ||
  f == "state" || f == "scheduled_time" || f == "start_time" ||
  f == "finish_time" || f == "result" || f == "exception" || f == "traceback"

/-- `find` criteria: `(field, value)` pairs, the kwargs of
`find(**criteria)`. -/
abbrev Criteria : Type := List (String × FieldVal)

/-- A task matches the criteria when every given `(field, value)` pair
compares equal on the task; an unknown field name matches nothing. -/
def matchesCriteria (t : Task) (criteria : Criteria) : Bool :=
  criteria.all fun fv =>
    match t.getField fv.1 with
    | some w => fieldEq w fv.2
    | none => false

/-- Tasks `a` and `b` have the same duplicate-detection signature:
same method identity and value-equal args/kwargs. -/
def sameSignature (a b : Task) : Bool :=
  a.method_name == b.method_name && a.args == b.args && dictEq a.kwargs b.kwargs

/-- Modelled from the spec: `pulp.server.tasking.queue.fifo.FIFOTaskQueue`
(module not in the source tree).  The storage is the arrival-ordered
list of tasks, the sole store of truth for what is queued or has run. -/
structure FIFOTaskQueue where
  storage : List Task
deriving DecidableEq, Repr

/-- The empty queue. -/
def FIFOTaskQueue.empty : FIFOTaskQueue := ⟨[]⟩

/-- Modelled from the spec: `enqueue(task, unique)`.  If `unique` and an
existing non-terminal stored task has the same signature, return the
existing task without adding a new entry; otherwise insert at the tail,
preserving arrival order, and return the task. -/
def FIFOTaskQueue.enqueue (q : FIFOTaskQueue) (t : Task) (unique : Bool) :
    FIFOTaskQueue × Task :=
  if unique then
    match q.storage.find? (fun u => !u.state.isComplete && sameSignature u t) with
    | some u => (q, u)
    | none => (⟨q.storage ++ [t]⟩, t)
  else
    (⟨q.storage ++ [t]⟩, t)

/-- Modelled from the spec: `find(**criteria)` returns all stored tasks
whose fields match every given `(field, value)` pair exactly; an
unknown field name yields no matches rather than an error.  The result
ordering follows the repository test
`FIFOQueueTester.test_find_multiple_matching`, which observes the most
recently enqueued matching task first (`found[0] is task2`), so the
matches are returned newest-first. -/
def FIFOTaskQueue.find (q : FIFOTaskQueue) (criteria : Criteria) : List Task :=
  (q.storage.filter (matchesCriteria · criteria)).reverse

/-- Whether stored task `u` agrees with candidate `t` on field `f`. -/
def matchOn (u t : Task) (f : String) : Bool :=
  match u.getField f, t.getField f with
  | some a, some b => fieldEq a b
  | _, _ => false

/-- Modelled from the spec: `exists(candidate_task, criteria)` returns
true when some stored task matches the candidate on every named field,
and raises `ValueError` on a field name that does not exist on the task
shape. -/
def FIFOTaskQueue.existsTask (q : FIFOTaskQueue) (t : Task)
    (criteria : List String) : Except String Bool :=
  if criteria.all knownField then
    .ok (q.storage.any fun u => criteria.all fun f => matchOn u t f)
  else
    .error "ValueError"

/-- A content unit in a dispatch batch: a `type_id` naming the content
type and a `unit_key` identifying the unit (the unit name in the
tests). -/
structure ContentUnit where
  type_id : String
  unit_key : String
deriving DecidableEq, Repr

/-- Dispatch options; the tests exercise the `reboot` option
(`options = dict(reboot=True)` versus `options = {}`, where omitting
the key reads as false). -/
structure DispatchOptions where
  reboot : Bool
deriving DecidableEq, Repr

/-- The outcome of one handler invocation on one content-type group:
per-group success flag, count of units changed, and whether the handler
itself requested a reboot. -/
structure HandlerReport where
  status : Bool
  chgcnt : Nat
  reboot_requested : Bool
deriving DecidableEq, Repr

/-- Modelled from the spec: a content handler, polymorphic over the
capability set; for the dispatch claims only the `install` capability is
needed, a function from a group of units and the options to a per-group
report (`pulp.gc_client.agent` handler contract, plugins not in the
source tree). -/
structure Handler where
  install : List ContentUnit → DispatchOptions → HandlerReport

/-- Modelled from the spec: `pulp.gc_client.agent.container.Container`,
a mapping from content-type identifier to a handler instance, populated
by `load()` (module not in the source tree). -/
structure Container where
  handlers : List (String × Handler)

/-- Modelled from the spec: `Container.find(type_id)` returns the
handler for that type or `None` when none is registered; it is a total
lookup and never raises for an unknown type. -/
def Container.find (c : Container) (type_id : String) : Option Handler :=
  c.handlers.lookup type_id

/-- Modelled from the spec: a `load()` step fully replaces the prior
index with the freshly scanned one (idempotent, not additive). -/
def Container.load (_c : Container) (scanned : List (String × Handler)) :
    Container :=
  ⟨scanned⟩

/-- The content-type identifiers of a batch not yet in `seen`, in
first-appearance order with duplicates removed. -/
def typeIdsFrom (seen : List String) : List ContentUnit → List String
  | [] => []
  | u :: us =>
    if seen.contains u.type_id then typeIdsFrom seen us
    else u.type_id :: typeIdsFrom (u.type_id :: seen) us

/-- The content-type identifiers of a batch in first-appearance order,
with duplicates removed. -/
def typeIds (units : List ContentUnit) : List String :=
  typeIdsFrom [] units

/-- Group a batch of units by `type_id`, preserving input order within
each group and first-appearance order across groups. -/
def groupByType (units : List ContentUnit) : List (String × List ContentUnit) :=
  (typeIds units).map fun tid => (tid, units.filter (fun u => u.type_id == tid))

/-- Aggregated outcome of a dispatch call. -/
structure Report where
  status : Bool
  chgcnt : Nat
  reboot_scheduled : Bool
  details : List (String × HandlerReport)
deriving DecidableEq, Repr

/-- Modelled from the spec: `pulp.gc_client.agent.dispatcher.Dispatcher`,
a stateless coordinator over one container (module not in the source
tree). -/
structure Dispatcher where
  container : Container

/-- Modelled from the spec: `Dispatcher.install(units, options)` groups
the units by `type_id`, resolves each group's handler via the
container; a group with no handler contributes a failure entry without
aborting the others; per-group outcomes merge into the aggregate by
summing `chgcnt`, AND-ing the statuses, and scheduling a reboot when
the options requested reboot and at least one unit changed, or a
handler explicitly requested one. -/
def Dispatcher.install (d : Dispatcher) (units : List ContentUnit)
    (options : DispatchOptions) : Report :=
  let results := (groupByType units).map fun g =>
    match d.container.find g.1 with
    | some h => (g.1, h.install g.2 options)
    | none => (g.1, HandlerReport.mk false 0 false)
  let chgcnt := (results.map (fun r => r.2.chgcnt)).sum
  { status := results.all (fun r => r.2.status)
    chgcnt := chgcnt
    reboot_scheduled :=
      (options.reboot && decide (0 < chgcnt)) || results.any (fun r => r.2.reboot_requested)
    details := results }

/-- The working `rpm` handler deployed by the tests' `MockDeployer`:
installing a group of units succeeds, changes every unit in the group,
and requests no reboot of its own. -/
def workingHandler : Handler :=
  ⟨fun us _ => ⟨true, us.length, false⟩⟩

/-- An HTTP response value produced by a `JSONController` method: either
a normal response body, or the internal-server-error response built by
`JSONController.internal_server_error` carrying its message. -/
inductive Response where
  | body (data : String)
  | internalServerError (msg : String)
deriving DecidableEq, Repr

/-- A raised Python exception as observed at the `except` site: the
captured exception value and traceback info. -/
structure Exc where
  message : String
  trace : String
deriving DecidableEq, Repr

/-- `''.join(traceback.format_exception(*exc_info))`: the formatted
traceback string for a caught exception. -/
def format_exception (e : Exc) : String :=
  "Traceback (most recent call last):\n" ++ e.trace ++ e.message

/-- `JSONController.internal_server_error(msg)`: sets the 500 status and
returns the response with `msg` as body
(`src/pulp/server/webservices/controllers/base.py`). -/
def internal_server_error (msg : String) : Response :=
  .internalServerError msg

/-- `JSONController.error_handler(method)` from
`src/pulp/server/webservices/controllers/base.py`: the wrapped method
returns the underlying method's result, except that a raised exception
is caught and reported as the internal-server-error response carrying
the formatted traceback string.  A controller method is embedded as a
function into `Except Exc Response`: `.error` is a raise, `.ok` a
normal return. -/
def error_handler {α : Type} (method : α → Except Exc Response) :
    α → Response :=
  fun a =>
    match method a with
    | .ok r => r
    | .error e => internal_server_error (format_exception e)

/-- The shared task table as seen by the dispatch loop: the current
time and the stored tasks in arrival order. -/
structure QueueState where
  now : Nat
  tasks : List Task
deriving DecidableEq, Repr

/-- Modelled from the spec: one step of the FIFO queue's dispatch loop.
Either time advances, or the loop picks a stored task — only when its
state is `waiting` and `now >= scheduled_time` — and runs it to
completion, stamping its finish time with the current time. -/
inductive QStep : QueueState → QueueState → Prop where
  | tick (s : QueueState) : QStep s ⟨s.now + 1, s.tasks⟩
  | runTask (s : QueueState) (i : Nat) (t : Task) (outcome : BodyOutcome)
      (hget : s.tasks.get? i = some t)
      (hwaiting : t.state = .waiting)
      (heligible : t.scheduled_time ≤ s.now) :
      QStep s ⟨s.now, s.tasks.set i (t.run outcome s.now)⟩

/-- Reachability of queue states under the dispatch loop. -/
def QReach : QueueState → QueueState → Prop :=
  Relation.ReflTransGen QStep

/-- Invariant of the dispatch loop: every task in a terminal state has
a finish time no earlier than its scheduled time. -/
def finishAfterScheduled (s : QueueState) : Prop :=
  ∀ t ∈ s.tasks, t.state.isComplete = true →
    ∃ ft, t.finish_time = some ft ∧ t.scheduled_time ≤ ft

/-! ### Helper lemmas -/

/-- The formatted traceback string is never empty. -/
theorem formatTraceback_ne_empty (msg : String) : formatTraceback msg ≠ "" := by
  intro h
  have hlen := congrArg String.length h
  rw [formatTraceback, String.length_append] at hlen
  have h35 : ("Traceback (most recent call last):\n" : String).length = 35 := rfl
  have h0 : ("" : String).length = 0 := rfl
  rw [h35, h0] at hlen
  omega

/-- A field name not on the task shape reads as `none` on every task. -/
theorem getField_eq_none_of_not_known (t : Task) (f : String)
    (h : knownField f = false) : t.getField f = none := by
  unfold knownField at h
  simp only [Bool.or_eq_false_iff, beq_eq_false_iff_ne, ne_eq] at h
  obtain ⟨⟨⟨⟨⟨⟨⟨⟨⟨⟨h1, h2⟩, h3⟩, h4⟩, h5⟩, h6⟩, h7⟩, h8⟩, h9⟩, h10⟩, h11⟩ := h
  simp only [Task.getField, if_neg h1, if_neg h2, if_neg h3, if_neg h4,
    if_neg h5, if_neg h6, if_neg h7, if_neg h8, if_neg h9, if_neg h10,
    if_neg h11]

/-! ### Claims about Task.run and snapshot/restore -/

/-- C4: running a task whose body raises leaves it in state `error`
with a non-empty traceback string and a string-typed exception message
(the model stores `exception : Option String`, the message rendered as
a string); running one whose body returns a value leaves it in state
`finished` with that value stored in `result`. -/
theorem run_raise_error_run_ret_finished (t : Task) (now : Nat) :
    (∀ msg, (t.run (.raise msg) now).state = .error ∧
      (t.run (.raise msg) now).traceback = some (formatTraceback msg) ∧
      formatTraceback msg ≠ "" ∧
      (t.run (.raise msg) now).exception = some msg) ∧
    (∀ v, (t.run (.ret v) now).state = .finished ∧
      (t.run (.ret v) now).result = some v) := by
  refine ⟨fun msg => ⟨rfl, rfl, formatTraceback_ne_empty msg, rfl⟩,
    fun v => ⟨rfl, rfl⟩⟩

/-- C3: the snapshot/restore round trip loses no information captured
from the task — restoring a snapshot of `T` yields `T`'s fields back,
in particular the same `state`; and for any error-state task whose
traceback is populated (as the run lifecycle guarantees: the final
conjunct shows any task that just ran a raising body restores with a
non-null traceback), the restored task's traceback is non-null. -/
theorem snapshot_restore_roundtrip (t : Task) :
    restore_from_snapshot (TaskSnapshot.ofTask t) = t ∧
    (restore_from_snapshot (TaskSnapshot.ofTask t)).state = t.state ∧
    (t.state = .error → t.traceback.isSome = true →
      (restore_from_snapshot (TaskSnapshot.ofTask t)).traceback.isSome = true) ∧
    (∀ msg now,
      (restore_from_snapshot
        (TaskSnapshot.ofTask (t.run (.raise msg) now))).state = .error ∧
      (restore_from_snapshot
        (TaskSnapshot.ofTask (t.run (.raise msg) now))).traceback.isSome = true) := by
  refine ⟨rfl, rfl, fun _ h => h, fun msg now => ⟨rfl, rfl⟩⟩

/-- C3 witness: a concrete error-state task (the `error` body of the
tests raising `Aaaargh!`) restores from its snapshot with state `error`
and a non-null traceback. -/
theorem snapshot_restore_roundtrip_witness :
    ((Task.new 1 "error" [] [] 0).run (.raise "Aaaargh!") 0).state = .error ∧
    (restore_from_snapshot (TaskSnapshot.ofTask
      ((Task.new 1 "error" [] [] 0).run (.raise "Aaaargh!") 0))).state = .error ∧
    (restore_from_snapshot (TaskSnapshot.ofTask
      ((Task.new 1 "error" [] [] 0).run (.raise "Aaaargh!") 0))).traceback.isSome
      = true := by
  have h := (snapshot_restore_roundtrip (Task.new 1 "error" [] [] 0)).2.2.2 "Aaaargh!" 0
  exact ⟨rfl, h.1, h.2⟩

/-! ### Claim about JSONController.error_handler -/

/-- C10: the `error_handler` wrapper never propagates an exception to
its caller — its result type is a plain `Response`, and: when the
underlying method raises, the wrapper returns the
`internal_server_error` response carrying the formatted traceback
string; when it does not raise, it returns the method's result
unchanged. -/
theorem error_handler_never_raises {α : Type} (method : α → Except Exc Response)
    (a : α) :
    (∀ e, method a = .error e →
      error_handler method a = internal_server_error (format_exception e)) ∧
    (∀ r, method a = .ok r → error_handler method a = r) := by
  constructor
  · intro e h
    simp [error_handler, h]
  · intro r h
    simp [error_handler, h]

/-- C10 witness: a raising method is reported as the
internal-server-error response with the formatted traceback; a
returning method's response passes through unchanged. -/
theorem error_handler_never_raises_witness :
    error_handler (fun _ : Nat => Except.error ⟨"boom", "tb"⟩) 0 =
      internal_server_error (format_exception ⟨"boom", "tb"⟩) ∧
    error_handler (fun _ : Nat => Except.ok (Response.body "payload")) 0 =
      Response.body "payload" := by
  constructor
  · exact (error_handler_never_raises (fun _ : Nat =>
      Except.error ⟨"boom", "tb"⟩) 0).1 ⟨"boom", "tb"⟩ rfl
  · exact (error_handler_never_raises (fun _ : Nat =>
      Except.ok (Response.body "payload")) 0).2 (Response.body "payload") rfl

/-! ### Claims about FIFOTaskQueue.enqueue, find, exists -/

/-- C2: enqueuing with `unique = true` a task whose signature equals
that of a stored non-terminal task adds no new entry and returns the
existing (stored, non-terminal, signature-equal) task; enqueuing with
`unique = false` always appends; and enqueuing with `unique = true` a
task whose signature matches no stored non-terminal task appends as
well, so two tasks with differing args or kwargs are both stored. -/
theorem enqueue_dedup_unique (q : FIFOTaskQueue) (t : Task) :
    ((q.enqueue t false).1.storage = q.storage ++ [t]) ∧
    ((∃ u ∈ q.storage, u.state.isComplete = false ∧ sameSignature u t = true) →
      (q.enqueue t true).1 = q ∧
      (q.enqueue t true).2 ∈ q.storage ∧
      sameSignature (q.enqueue t true).2 t = true ∧
      (q.enqueue t true).2.state.isComplete = false) ∧
    ((∀ u ∈ q.storage, u.state.isComplete = true ∨ sameSignature u t = false) →
      (q.enqueue t true).1.storage = q.storage ++ [t] ∧
      (q.enqueue t true).2 = t) := by
  refine ⟨rfl, ?_, ?_⟩
  · rintro ⟨u, hu, hnc, hsig⟩
    have hsome : (q.storage.find?
        (fun v => !v.state.isComplete && sameSignature v t)).isSome := by
      rw [List.find?_isSome]
      exact ⟨u, hu, by simp [hnc, hsig]⟩
    obtain ⟨w, hw⟩ := Option.isSome_iff_exists.mp hsome
    have hmem := List.mem_of_find?_eq_some hw
    have hp := List.find?_some hw
    simp only [Bool.and_eq_true, Bool.not_eq_true'] at hp
    have he : q.enqueue t true = (q, w) := by
      simp [FIFOTaskQueue.enqueue, hw]
    rw [he]
    exact ⟨rfl, hmem, hp.2, hp.1⟩
  · intro hall
    have hnone : q.storage.find?
        (fun v => !v.state.isComplete && sameSignature v t) = none := by
      rw [List.find?_eq_none]
      intro x hx
      rcases hall x hx with h | h <;> simp [h]
    have he : q.enqueue t true = (⟨q.storage ++ [t]⟩, t) := by
      simp [FIFOTaskQueue.enqueue, hnone]
    rw [he]
    exact ⟨rfl, rfl⟩

/-- C2 witness: mirroring the tests, a second `args`-task with the same
args deduplicates under `unique = true` (one stored task), while
`unique = false` or differing args yield two stored tasks. -/
theorem enqueue_dedup_unique_witness :
    ((FIFOTaskQueue.mk [Task.new 1 "args" [Value.vnat 1, Value.vnat 2] [] 0]).enqueue
        (Task.new 2 "args" [Value.vnat 1, Value.vnat 2] [] 0) true).1
      = FIFOTaskQueue.mk [Task.new 1 "args" [Value.vnat 1, Value.vnat 2] [] 0] ∧
    ((FIFOTaskQueue.mk [Task.new 1 "args" [Value.vnat 1, Value.vnat 2] [] 0]).enqueue
        (Task.new 2 "args" [Value.vnat 1, Value.vnat 2] [] 0) false).1.storage.length
      = 2 ∧
    ((FIFOTaskQueue.mk [Task.new 1 "args" [Value.vnat 1, Value.vnat 2] [] 0]).enqueue
        (Task.new 2 "args" [Value.vnat 2, Value.vnat 3] [] 0) true).1.storage.length
      = 2 := by
  refine ⟨((enqueue_dedup_unique _ _).2.1
      ⟨Task.new 1 "args" [Value.vnat 1, Value.vnat 2] [] 0,
        by simp, by decide, by decide⟩).1, ?_, ?_⟩
  · have h := (enqueue_dedup_unique
      (FIFOTaskQueue.mk [Task.new 1 "args" [Value.vnat 1, Value.vnat 2] [] 0])
      (Task.new 2 "args" [Value.vnat 1, Value.vnat 2] [] 0)).1
    rw [h]
    rfl
  · have h := ((enqueue_dedup_unique
      (FIFOTaskQueue.mk [Task.new 1 "args" [Value.vnat 1, Value.vnat 2] [] 0])
      (Task.new 2 "args" [Value.vnat 2, Value.vnat 3] [] 0)).2.2 (by decide)).1
    rw [h]
    rfl

/-- C5: with a field list whose names all exist on the task shape,
`exists` returns true exactly when some stored task matches the
candidate on every named field; a field list containing a name not on
the task shape raises `ValueError`. -/
theorem exists_criteria_spec (q : FIFOTaskQueue) (t : Task)
    (criteria : List String) :
    ((∀ f ∈ criteria, knownField f = true) →
      (q.existsTask t criteria = .ok true ↔
        ∃ u ∈ q.storage, ∀ f ∈ criteria, matchOn u t f = true)) ∧
    ((∃ f ∈ criteria, knownField f = false) →
      q.existsTask t criteria = .error "ValueError") := by
  constructor
  · intro hvalid
    have hc : criteria.all knownField = true := List.all_eq_true.mpr hvalid
    have he : q.existsTask t criteria
        = .ok (q.storage.any fun u => criteria.all fun f => matchOn u t f) := by
      unfold FIFOTaskQueue.existsTask
      rw [if_pos hc]
    rw [he]
    simp [List.any_eq_true, List.all_eq_true]
  · rintro ⟨f, hf, hbad⟩
    have hc : ¬(criteria.all knownField = true) := by
      rw [List.all_eq_true]
      intro hall
      rw [hall f hf] at hbad
      exact absurd hbad (by decide)
    unfold FIFOTaskQueue.existsTask
    rw [if_neg hc]

/-- C5 witness: mirroring the tests, a candidate sharing a stored
task's id is found via `exists(candidate, ['id'])`, and
`exists(candidate, ['foo'])` raises `ValueError`. -/
theorem exists_criteria_spec_witness :
    (FIFOTaskQueue.mk [Task.new 1 "noop" [] [] 0]).existsTask
      (Task.new 1 "other" [] [] 0) ["id"] = .ok true ∧
    (FIFOTaskQueue.mk [Task.new 1 "noop" [] [] 0]).existsTask
      (Task.new 2 "noop" [] [] 0) ["foo"] = .error "ValueError" := by
  constructor
  · exact ((exists_criteria_spec _ _ _).1 (by decide)).mpr
      ⟨Task.new 1 "noop" [] [] 0, by simp, by decide⟩
  · exact (exists_criteria_spec _ _ _).2 ⟨"foo", by simp, by decide⟩

/-- C8: `find` returns only stored tasks matching all given
`(field, value)` pairs; `find` on the empty queue returns the empty
result for any criteria; and criteria naming an unknown field return
the empty result rather than raising. -/
theorem find_matches_all_criteria (q : FIFOTaskQueue) (criteria : Criteria) :
    (∀ t ∈ q.find criteria, t ∈ q.storage ∧ matchesCriteria t criteria = true) ∧
    (FIFOTaskQueue.empty.find criteria = []) ∧
    ((∃ fv ∈ criteria, knownField fv.1 = false) → q.find criteria = []) := by
  refine ⟨?_, rfl, ?_⟩
  · intro t ht
    rw [FIFOTaskQueue.find, List.mem_reverse, List.mem_filter] at ht
    exact ht
  · rintro ⟨fv, hfv, hbad⟩
    rw [FIFOTaskQueue.find, List.reverse_eq_nil_iff, List.filter_eq_nil_iff]
    intro u hu hmatch
    rw [matchesCriteria, List.all_eq_true] at hmatch
    have hm := hmatch fv hfv
    rw [getField_eq_none_of_not_known u fv.1 hbad] at hm
    simp at hm

/-- C8 witness: `find(foo=1)` on a one-task queue returns no matches,
and `find(id=1)` on the empty queue returns no matches. -/
theorem find_matches_all_criteria_witness :
    (FIFOTaskQueue.mk [Task.new 1 "noop" [] [] 0]).find
      [("foo", FieldVal.fnat 1)] = [] ∧
    FIFOTaskQueue.empty.find [("id", FieldVal.fnat 1)] = [] := by
  exact ⟨(find_matches_all_criteria _ _).2.2
      ⟨("foo", FieldVal.fnat 1), by simp, by decide⟩,
    (find_matches_all_criteria FIFOTaskQueue.empty
      [("id", FieldVal.fnat 1)]).2.1⟩

/-- C1 counterexample: enqueue two matching `noop` tasks in order (id 1
first, id 2 second, both stored, arrival order preserved in storage);
`find(state=waiting)` returns the later-enqueued task FIRST, so a task
enqueued earlier does not appear in the result before a task enqueued
later — exactly what the repository test
`FIFOQueueTester.test_find_multiple_matching` asserts
(`found[0] is task2`). -/
theorem find_fifo_order_counterexample :
    (((FIFOTaskQueue.empty.enqueue (Task.new 1 "noop" [] [] 0) false).1.enqueue
        (Task.new 2 "noop" [] [] 0) false).1.storage
      = [Task.new 1 "noop" [] [] 0, Task.new 2 "noop" [] [] 0]) ∧
    (((FIFOTaskQueue.empty.enqueue (Task.new 1 "noop" [] [] 0) false).1.enqueue
        (Task.new 2 "noop" [] [] 0) false).1.find
        [("state", FieldVal.fstate .waiting)]
      = [Task.new 2 "noop" [] [] 0, Task.new 1 "noop" [] [] 0]) ∧
    Task.new 1 "noop" [] [] 0 ≠ Task.new 2 "noop" [] [] 0 :=
  ⟨rfl, rfl, by decide⟩

/-- C1 amended: `find` returns exactly the stored tasks matching every
given `(field, value)` pair, in reverse arrival order — the reversed
result is a sublist of the arrival-ordered storage, so a task enqueued
later appears in the result before a task enqueued earlier. -/
theorem find_newest_first (q : FIFOTaskQueue) (criteria : Criteria) :
    ((q.find criteria).reverse.Sublist q.storage) ∧
    (∀ t, t ∈ q.find criteria ↔
      t ∈ q.storage ∧ matchesCriteria t criteria = true) := by
  constructor
  · rw [FIFOTaskQueue.find, List.reverse_reverse]
    exact List.filter_sublist q.storage
  · intro t
    rw [FIFOTaskQueue.find, List.mem_reverse, List.mem_filter]

/-! ### Claims about the handler container and dispatcher -/

/-- Scanning past units whose type is already seen yields no further
type identifiers. -/
theorem typeIdsFrom_seen (tid : String) (us : List ContentUnit)
    (h : ∀ u ∈ us, u.type_id = tid) : typeIdsFrom [tid] us = [] := by
  induction us with
  | nil => rfl
  | cons v vs ih =>
    have hv : v.type_id = tid := h v (List.mem_cons_self v vs)
    rw [show typeIdsFrom [tid] (v :: vs) = typeIdsFrom [tid] vs from by
      simp [typeIdsFrom, hv]]
    exact ih fun u hu => h u (List.mem_cons_of_mem _ hu)

/-- A non-empty batch all of one type has exactly that one type
identifier. -/
theorem typeIds_const (tid : String) (units : List ContentUnit)
    (hne : units ≠ []) (hall : ∀ u ∈ units, u.type_id = tid) :
    typeIds units = [tid] := by
  cases units with
  | nil => exact absurd rfl hne
  | cons u us =>
    have hu : u.type_id = tid := hall u (List.mem_cons_self u us)
    have hrest : ∀ v ∈ us, v.type_id = tid := fun v hv =>
      hall v (List.mem_cons_of_mem _ hv)
    rw [show typeIds (u :: us) = u.type_id :: typeIdsFrom [u.type_id] us from by
      simp [typeIds, typeIdsFrom]]
    rw [hu, typeIdsFrom_seen tid us hrest]

/-- A non-empty batch all of one type forms a single group holding the
whole batch. -/
theorem groupByType_const (tid : String) (units : List ContentUnit)
    (hne : units ≠ []) (hall : ∀ u ∈ units, u.type_id = tid) :
    groupByType units = [(tid, units)] := by
  have hfilter : units.filter (fun u => u.type_id == tid) = units :=
    List.filter_eq_self.mpr (by intro u hu; simp [hall u hu])
  unfold groupByType
  rw [typeIds_const tid units hne hall]
  simp [hfilter]

/-- C6: dispatching `install` on a non-empty batch of `rpm` units
against a container with the working `rpm` handler yields a report
with `status = true` and `chgcnt` equal to the number of units in the
batch, and `reboot.scheduled` equal to the `reboot` option — false
when the options omit reboot, true when they request it. -/
theorem dispatcher_install_report (c : Container) (units : List ContentUnit)
    (options : DispatchOptions)
    (hfind : c.find "rpm" = some workingHandler)
    (hne : units ≠ [])
    (hall : ∀ u ∈ units, u.type_id = "rpm") :
    ((Dispatcher.mk c).install units options).status = true ∧
    ((Dispatcher.mk c).install units options).chgcnt = units.length ∧
    ((Dispatcher.mk c).install units options).reboot_scheduled
      = options.reboot := by
  have hg := groupByType_const "rpm" units hne hall
  have hlen : 0 < units.length := List.length_pos.mpr hne
  unfold Dispatcher.install
  rw [hg]
  simp [hfind, workingHandler, hlen]

/-- C6 witness: the tests' batch of `rpm` units `zsh` and `ksh`
installs with overall success, change count 2, no reboot scheduled
without the option, and a reboot scheduled when
`options = dict(reboot=True)`. -/
theorem dispatcher_install_report_witness :
    ((Dispatcher.mk (Container.mk [("rpm", workingHandler)])).install
        [ContentUnit.mk "rpm" "zsh", ContentUnit.mk "rpm" "ksh"]
        (DispatchOptions.mk false)).status = true ∧
    ((Dispatcher.mk (Container.mk [("rpm", workingHandler)])).install
        [ContentUnit.mk "rpm" "zsh", ContentUnit.mk "rpm" "ksh"]
        (DispatchOptions.mk false)).chgcnt = 2 ∧
    ((Dispatcher.mk (Container.mk [("rpm", workingHandler)])).install
        [ContentUnit.mk "rpm" "zsh", ContentUnit.mk "rpm" "ksh"]
        (DispatchOptions.mk false)).reboot_scheduled = false ∧
    ((Dispatcher.mk (Container.mk [("rpm", workingHandler)])).install
        [ContentUnit.mk "rpm" "zsh"]
        (DispatchOptions.mk true)).reboot_scheduled = true := by
  have h1 := dispatcher_install_report (Container.mk [("rpm", workingHandler)])
    [ContentUnit.mk "rpm" "zsh", ContentUnit.mk "rpm" "ksh"]
    (DispatchOptions.mk false) rfl (by decide) (by decide)
  have h2 := dispatcher_install_report (Container.mk [("rpm", workingHandler)])
    [ContentUnit.mk "rpm" "zsh"] (DispatchOptions.mk true) rfl (by decide)
    (by decide)
  exact ⟨h1.1, h1.2.1.trans rfl, h1.2.2.trans rfl, h2.2.2.trans rfl⟩

/-- C7: for every container and type identifier, `find` returns the
handler registered for that type when one exists and `none` when none
exists; being a total function into `Option Handler`, it never raises
for an unknown type. -/
theorem container_find_total (c : Container) (tid : String) :
    (tid ∈ c.handlers.map Prod.fst →
      ∃ h, c.find tid = some h ∧ (tid, h) ∈ c.handlers) ∧
    (tid ∉ c.handlers.map Prod.fst → c.find tid = none) := by
  constructor
  · intro hmem
    have hsome : (c.handlers.lookup tid).isSome := by
      rw [List.lookup_isSome_iff]
      obtain ⟨p, hp, hfst⟩ := List.mem_map.mp hmem
      exact ⟨p, hp, beq_iff_eq.mpr hfst.symm⟩
    obtain ⟨h, hl⟩ := Option.isSome_iff_exists.mp hsome
    refine ⟨h, hl, ?_⟩
    obtain ⟨l₁, l₂, heq, -⟩ := List.lookup_eq_some_iff.mp hl
    rw [heq]
    exact List.mem_append_right _ (List.mem_cons_self _ _)
  · intro hmem
    show c.handlers.lookup tid = none
    rw [List.lookup_eq_none_iff]
    intro p hp
    have hne : p.1 ≠ tid := fun h => hmem (List.mem_map.mpr ⟨p, hp, h⟩)
    exact bne_iff_ne.mpr (Ne.symm hne)

/-- C7 witness: in the tests' loaded container, `find('rpm')` returns
the deployed handler and `find('xxx')` returns `None`. -/
theorem container_find_total_witness :
    (Container.mk [("rpm", workingHandler)]).find "rpm" = some workingHandler ∧
    (Container.mk [("rpm", workingHandler)]).find "xxx" = none := by
  constructor
  · obtain ⟨h, hfind, hmem⟩ :=
      (container_find_total (Container.mk [("rpm", workingHandler)]) "rpm").1
        (by simp)
    have : h = workingHandler := by simpa using hmem
    rw [this] at hfind
    exact hfind
  · exact (container_find_total (Container.mk [("rpm", workingHandler)])
      "xxx").2 (by simp)

/-! ### Claim about the dispatch loop and scheduled times -/

/-- Each dispatch-loop step preserves the invariant that completed
tasks finished no earlier than their scheduled time. -/
theorem qstep_preserves_finishAfterScheduled (s s' : QueueState)
    (hstep : QStep s s') (hinv : finishAfterScheduled s) :
    finishAfterScheduled s' := by
  cases hstep with
  | tick => exact hinv
  | runTask i t outcome hget hwaiting heligible =>
    intro u hu hc
    rcases List.mem_or_eq_of_mem_set hu with hmem | heq
    · exact hinv u hmem hc
    · subst heq
      cases outcome with
      | ret v => exact ⟨s.now, rfl, heligible⟩
      | raise msg => exact ⟨s.now, rfl, heligible⟩

/-- C9: from any initial table of waiting tasks, every state the
dispatch loop can reach satisfies: a task in a terminal state has a
finish time no earlier than its `scheduled_time` — so a task enqueued
with `scheduled_time` N seconds in the future never finishes before N
seconds have elapsed.  Moreover the loop picks a task only when it is
`waiting` and `now >= scheduled_time`, and once a waiting task is
eligible a single dispatch step runs it to `finished`. -/
theorem dispatch_never_finishes_early (s0 s : QueueState)
    (hinit : ∀ t ∈ s0.tasks, t.state = .waiting)
    (hreach : QReach s0 s) :
    finishAfterScheduled s ∧
    (∀ i t v, s.tasks.get? i = some t → t.state = .waiting →
      t.scheduled_time ≤ s.now →
      QStep s ⟨s.now, s.tasks.set i (t.run (.ret v) s.now)⟩ ∧
      (t.run (.ret v) s.now).state = .finished) := by
  constructor
  · have hr : Relation.ReflTransGen QStep s0 s := hreach
    clear hreach
    induction hr with
    | refl =>
      intro t ht hc
      rw [hinit t ht] at hc
      exact absurd hc (by simp [TaskState.isComplete])
    | tail hab hbc ih => exact qstep_preserves_finishAfterScheduled _ _ hbc ih
  · intro i t v hget hw he
    exact ⟨QStep.runTask s i t (.ret v) hget hw he, rfl⟩

/-- C9 witness: a task scheduled at time 2 in a queue started at time
0, after two clock ticks and one dispatch step, is finished with finish
time 2, not earlier than its scheduled time. -/
theorem dispatch_never_finishes_early_witness :
    finishAfterScheduled
      ⟨2, [(Task.new 1 "noop" [] [] 2).run (BodyOutcome.ret Value.vnone) 2]⟩ := by
  refine (dispatch_never_finishes_early ⟨0, [Task.new 1 "noop" [] [] 2]⟩
    ⟨2, [(Task.new 1 "noop" [] [] 2).run (BodyOutcome.ret Value.vnone) 2]⟩
    ?_ ?_).1
  · intro t ht
    rw [List.mem_singleton] at ht
    rw [ht]
    rfl
  · exact Relation.ReflTransGen.tail
      (Relation.ReflTransGen.tail
        (Relation.ReflTransGen.single (QStep.tick ⟨0, [Task.new 1 "noop" [] [] 2]⟩))
        (QStep.tick ⟨1, [Task.new 1 "noop" [] [] 2]⟩))
      (QStep.runTask ⟨2, [Task.new 1 "noop" [] [] 2]⟩ 0
        (Task.new 1 "noop" [] [] 2) (BodyOutcome.ret Value.vnone) rfl rfl
        (Nat.le_refl 2))

end Pulp
